import Mathlib

/-
  Verification development for the httpcord library: a shallow embedding of the
  command registration, resolution and response pipeline (httpcord/bot.py,
  httpcord/command/base.py, httpcord/command/types.py, httpcord/types.py,
  httpcord/interaction.py, httpcord/http.py, httpcord/locale.py), with theorems
  about the behaviour of that pipeline.
-/

namespace Httpcord

/-- Raw JSON-ish scalar values appearing as option values in inbound payloads. -/
inductive Value where
  | vStr (s : String)
  | vInt (n : Int)
  | vBool (b : Bool)
  deriving DecidableEq, Repr

/-- Python dict lookup on an insertion-ordered association list (`d.get(k)`). -/
def dictGet? {α : Type} {β : Type} [DecidableEq α] : List (α × β) → α → Option β
  | [], _ => none
  | (k, v) :: xs, key => if k = key then some v else dictGet? xs key

/-- Python dict assignment `d[k] = v`: replace in place when the key exists,
append otherwise (insertion order is preserved). -/
def dictSet {α : Type} {β : Type} [DecidableEq α] : List (α × β) → α → β → List (α × β)
  | [], key, v => [(key, v)]
  | (k, w) :: xs, key, v => if k = key then (key, v) :: xs else (k, w) :: dictSet xs key v

/-- Python dict deletion `del d[k]` (keys are unique in a dict). -/
def dictErase {α : Type} {β : Type} [DecidableEq α] : List (α × β) → α → List (α × β)
  | [], _ => []
  | (k, w) :: xs, key => if k = key then xs else (k, w) :: dictErase xs key

/-- Modelled from the spec: httpcord/enums.py is not under src/. Command surface
kinds (text-invocation, user-context, message-context, primary-entry-point). -/
inductive ApplicationCommandType where
  | chatInput
  | user
  | message
  | primaryEntryPoint
  deriving DecidableEq, Repr

/-- Modelled from the spec: httpcord/enums.py is not under src/. The wire type
tags of command options (spec section 3, OptionDescriptor). -/
inductive ApplicationCommandOptionType where
  | subCommand
  | subCommandGroup
  | string
  | integer
  | number
  | boolean
  | user
  | channel
  | role
  | mentionable
  | attachment
  deriving DecidableEq, Repr

/-- Modelled from the spec: httpcord/enums.py is not under src/. Response
envelope type tags; numeric values from spec section 6 and the platform API. -/
inductive InteractionResponseType where
  | pong
  | channelMessageWithSource
  | deferredChannelMessageWithSource
  | deferredUpdateMessage
  | applicationCommandAutocompleteResult
  deriving DecidableEq, Repr

/-- Numeric wire value of a response type tag. -/
def InteractionResponseType.val : InteractionResponseType → Int
  | .pong => 1
  | .channelMessageWithSource => 4
  | .deferredChannelMessageWithSource => 5
  | .deferredUpdateMessage => 6
  | .applicationCommandAutocompleteResult => 8

/-- Modelled from the spec: httpcord/enums.py is not under src/. The only flag
the library sets is EPHEMERAL (value 64). -/
inductive InteractionResponseFlags where
  | ephemeral
  deriving DecidableEq, Repr

/-- Numeric wire value of a response flag. -/
def InteractionResponseFlags.val : InteractionResponseFlags → Int
  | .ephemeral => 64

/-- Python primitive classes that can appear as handler parameter annotations. -/
inductive PrimTy where
  | pyBool
  | pyInt
  | pyFloat
  | pyStr
  deriving DecidableEq, Repr

/-- Python classes usable as handler parameter annotations or as keys of
TYPE_CONVERSION_TABLE: the four primitives plus the library's entity classes
(`User`, `File`, `Role`, `BaseChannel`, `Member`, `Attachment`) and a catch-all
for any other class (such as `object`, reached through an enum's base chain). -/
inductive NativeTy where
  | prim (p : PrimTy)
  | userCls
  | fileCls
  | roleCls
  | channelCls
  | memberCls
  | attachmentCls
  | otherCls
  deriving DecidableEq, Repr

/-- httpcord/types.py TYPE_CONVERSION_TABLE: the fixed lookup table from Python
classes to wire type tags. The source has the channel, mentionable and role
entries commented out, so they are genuinely absent from the table. -/
def TYPE_CONVERSION_TABLE : List (NativeTy × ApplicationCommandOptionType) :=
  [ (.prim .pyBool, .boolean),
    (.prim .pyInt, .integer),
    (.prim .pyFloat, .number),
    (.prim .pyStr, .string),
    (.userCls, .user),
    (.fileCls, .attachment) ]

/-- An enumeration class used as a handler parameter annotation:
`__members__` as an ordered association list of (member name, member value),
and the class reached by `__base__.__bases__[0]` in the builder. -/
structure EnumInfo where
  members : List (String × Value)
  base : NativeTy
  deriving DecidableEq, Repr

/-- The metadata object attached through `Annotated[origin, meta]`:
an `Integer`, `Float` or `String` bound descriptor, or anything else. -/
inductive BoundMeta where
  | integerMeta (minValue maxValue : Option Rat)
  | floatMeta (minValue maxValue : Option Rat)
  | stringMeta (minLength maxLength : Option Int)
  | otherMeta
  deriving DecidableEq, Repr

/-- A handler parameter annotation as inspected by Command.options: a plain
class, an enumeration class, an `Annotated[origin, meta]` alias, or a union
type (of which the builder takes the first argument). -/
inductive AnnTy where
  | native (t : NativeTy)
  | enumTy (e : EnumInfo)
  | annotatedTy (origin : NativeTy) (meta : BoundMeta)
  | unionTy (first : AnnTy) (restCount : Nat)
  deriving DecidableEq, Repr

/-- httpcord/command/types.py Choice: `Choice(name=..., value=...)`. -/
structure Choice where
  name : Value
  value : String
  deriving DecidableEq, Repr

/-- The choice list built for an enum-typed parameter in Command.options:
`[Choice(name=v.value, value=k) for k, v in option_value.__members__.items()]`. -/
def enumChoices (e : EnumInfo) : List Choice :=
  e.members.map fun kv => ⟨kv.2, kv.1⟩

/-- httpcord/command/types.py CommandOption, restricted to the fields the
pipeline reads (`_locale` is only consumed by to_dict, which no claim uses). -/
inductive CommandOption where
  | mk
      (name : String)
      (description : Option String)
      (type : ApplicationCommandOptionType)
      (nativeType : Option NativeTy)
      (required : Bool)
      (autocomplete : Option Bool)
      (options : Option (List (String × CommandOption)))
      (choices : Option (List Choice))
      (minValue maxValue : Option Rat)
      (minLength maxLength : Option Int)

def CommandOption.name : CommandOption → String
  | .mk n _ _ _ _ _ _ _ _ _ _ _ => n

def CommandOption.type : CommandOption → ApplicationCommandOptionType
  | .mk _ _ t _ _ _ _ _ _ _ _ _ => t

def CommandOption.nativeType : CommandOption → Option NativeTy
  | .mk _ _ _ nt _ _ _ _ _ _ _ _ => nt

def CommandOption.required : CommandOption → Bool
  | .mk _ _ _ _ r _ _ _ _ _ _ _ => r

def CommandOption.choices : CommandOption → Option (List Choice)
  | .mk _ _ _ _ _ _ _ c _ _ _ _ => c

/-- httpcord/locale.py Locale: the two localisation tables. -/
structure Locale where
  nameLocalisations : List (String × String)
  descriptionLocalisations : List (String × String)
  deriving DecidableEq, Repr

/-- Locale.get_default("description_localisations"): the en-US entry, else the
first value; IndexError when the table is empty. -/
def Locale.getDefaultDescription (l : Locale) : Except String String :=
  match dictGet? l.descriptionLocalisations "en-US" with
  | some v => .ok v
  | none =>
      match l.descriptionLocalisations with
      | [] => .error ("IndexError: list index out of range")
      | (_, v) :: _ => .ok v

/-- A registered handler function, as reflected on by the library:
its annotated parameters in declaration order (starting with the interaction
context parameter), the return annotation when present (`__annotations__` then
carries a final entry named return), and `__kwdefaults__` as the names of the
keyword parameters carrying default values. -/
structure Handler where
  params : List (String × AnnTy)
  returnAnn : Option AnnTy
  kwdefaults : List String

/-- `func.__annotations__` as an ordered association list. -/
def Handler.annotationsList (h : Handler) : List (String × AnnTy) :=
  h.params ++ (match h.returnAnn with
    | some a => [("return", a)]
    | none => [])

/-- `list(func.__annotations__.items())[1:-1]`: the slice Command.options
iterates over (drops the first entry and the last entry). -/
def Handler.rawOptionsList (h : Handler) : List (String × AnnTy) :=
  (h.annotationsList.drop 1).dropLast

/-- httpcord/command/base.py Command, restricted to the fields the pipeline
reads (allowed contexts, integration surfaces and the command-level Locale are
only consumed by to_dict, which no claim uses). `subCommands` models the
`_sub_commands` dict, `optionLocalisations` the `_option_localisations` dict,
`autocompletes` the key set of the `_autocompletes` dict. -/
inductive Command where
  | mk
      (name : String)
      (description : Option String)
      (commandType : ApplicationCommandType)
      (func : Option Handler)
      (autocompletes : List String)
      (autoDefer : Bool)
      (subCommands : List (String × Command))
      (optionLocalisations : List (String × Locale))

def Command.name : Command → String
  | .mk n _ _ _ _ _ _ _ => n

def Command.commandType : Command → ApplicationCommandType
  | .mk _ _ ct _ _ _ _ _ => ct

def Command.func : Command → Option Handler
  | .mk _ _ _ f _ _ _ _ => f

def Command.autoDefer : Command → Bool
  | .mk _ _ _ _ _ d _ _ => d

def Command.subCommands : Command → List (String × Command)
  | .mk _ _ _ _ _ _ s _ => s

/-- Command.is_sub_command_group: `len(self._sub_commands) > 0`. -/
def Command.isSubCommandGroup (c : Command) : Bool :=
  decide (c.subCommands.length > 0)

/-- Command.description (the property): `(description or "--")` for a
CHAT_INPUT command, None otherwise. -/
def Command.descriptionProp : Command → Option String
  | .mk _ d ct _ _ _ _ _ =>
      if ct = ApplicationCommandType.chatInput then some (d.getD "--") else none

/-- Command.__init__: raises ValueError when `func` is None and the
sub-command list is None or empty; otherwise stores the fields, building the
`_sub_commands` dict keyed by each sub-command's name. -/
def commandInit
    (name : String)
    (commandType : Option ApplicationCommandType)
    (description : Option String)
    (func : Option Handler)
    (autocompletes : Option (List String))
    (autoDefer : Option Bool)
    (subCommands : Option (List Command))
    (optionLocalisations : Option (List (String × Locale))) :
    Except String Command :=
  if (func.isNone && subCommands.isNone)
      || (func.isNone && decide ((subCommands.getD []).length = 0)) then
    .error ("Group command must at least one sub command provided (" ++ name ++ ").")
  else
    .ok (Command.mk name description (commandType.getD .chatInput) func
      (autocompletes.getD []) ((autoDefer.getD false))
      ((subCommands.getD []).foldl (fun acc sc => dictSet acc sc.name sc) [])
      (optionLocalisations.getD []))

/-- The bound settings extracted from Annotated metadata: min/max value for
`Integer`/`Float` descriptors, min/max length for `String` descriptors,
nothing for any other metadata object. -/
def metaSettings : BoundMeta → (Option Rat × Option Rat × Option Int × Option Int)
  | .integerMeta mn mx => (mn, mx, none, none)
  | .floatMeta mn mx => (mn, mx, none, none)
  | .stringMeta mn mx => (none, none, mn, mx)
  | .otherMeta => (none, none, none, none)

/-- The per-option description from `_option_localisations`:
`get_default("description_localisations")` of the option's Locale when the
command registered one, else None. -/
def optionDescriptionFor (locs : List (String × Locale)) (optionName : String) :
    Except String (Option String) :=
  match dictGet? locs optionName with
  | none => .ok none
  | some l => (l.getDefaultDescription).map some

/-- One iteration of the Command.options leaf loop for a parameter
`(option_name, option_value)`: required-ness from `__kwdefaults__`, the union
first-argument substitution, enum expansion into choices, extraction of
Annotated bound settings, the fall-back to str for types absent from
TYPE_CONVERSION_TABLE, and the CommandOption construction. The source does not
pass `native_type=` to CommandOption, so `_native_type` keeps its None
default. -/
def buildOption (autoc : List String) (locs : List (String × Locale))
    (kwdefaults : List String) (p : String × AnnTy) : Except String CommandOption := do
  let optionName := p.1
  let required := decide (optionName ∉ kwdefaults)
  let v1 : AnnTy :=
    match p.2 with
    | .unionTy first _ => first
    | a => a
  let choicesAndV2 : Option (List Choice) × AnnTy :=
    match v1 with
    | .enumTy e => (some (enumChoices e), .native e.base)
    | a => (none, a)
  let choices := choicesAndV2.1
  let settingsAndV3 : (Option Rat × Option Rat × Option Int × Option Int) × AnnTy :=
    match choicesAndV2.2 with
    | .annotatedTy origin meta => (metaSettings meta, .native origin)
    | a => ((none, none, none, none), a)
  let (mnV, mxV, mnL, mxL) := settingsAndV3.1
  let key : NativeTy :=
    match settingsAndV3.2 with
    | .native t => if (dictGet? TYPE_CONVERSION_TABLE t).isSome then t else .prim .pyStr
    | _ => .prim .pyStr
  let otype := (dictGet? TYPE_CONVERSION_TABLE key).getD .string
  let odesc ← optionDescriptionFor locs optionName
  .ok (CommandOption.mk optionName odesc otype none required
    (some (decide (optionName ∈ autoc))) none choices mnV mxV mnL mxL)

/-- The leaf branch of Command.options: fold the `[1:-1]` annotation slice into
an ordered dict of CommandOption descriptors. -/
def leafOptionsGo (autoc : List String) (locs : List (String × Locale))
    (kwdefaults : List String) :
    List (String × AnnTy) → List (String × CommandOption) →
    Except String (List (String × CommandOption))
  | [], acc => .ok acc
  | p :: ps, acc => do
      let o ← buildOption autoc locs kwdefaults p
      leafOptionsGo autoc locs kwdefaults ps (dictSet acc p.1 o)

/-- Command.options when `self._func is not None`. -/
def leafOptions (h : Handler) (autoc : List String) (locs : List (String × Locale)) :
    Except String (List (String × CommandOption)) :=
  leafOptionsGo autoc locs h.kwdefaults h.rawOptionsList []

mutual

/-- Command.options (the property): None when the command has neither a
handler nor sub-commands; the leaf descriptor dict when a handler is present;
otherwise one SUB_COMMAND / SUB_COMMAND_GROUP descriptor per child, raising
ValueError for a child group whose own options are falsy. -/
def Command.options : Command → Except String (Option (List (String × CommandOption)))
  | Command.mk name _desc _ctype func autoc _adef subs locs =>
      if func.isNone && subs.isEmpty then .ok none
      else
        match func with
        | some h => (leafOptions h autoc locs).map some
        | none => (groupOptionsGo name subs []).map some

/-- The sub-command loop of Command.options. -/
def groupOptionsGo (parentName : String) :
    List (String × Command) → List (String × CommandOption) →
    Except String (List (String × CommandOption))
  | [], acc => .ok acc
  | (nm, sub) :: rest, acc => do
      let so ← sub.options
      if sub.isSubCommandGroup then
        if (so.getD []).isEmpty then
          .error ("Subcommand group " ++ parentName ++ " " ++ sub.name ++
            " must have sub commands provided.")
        else
          groupOptionsGo parentName rest (dictSet acc nm
            (CommandOption.mk nm sub.descriptionProp .subCommandGroup none false
              none so none none none none none))
      else
        groupOptionsGo parentName rest (dictSet acc nm
          (CommandOption.mk nm sub.descriptionProp .subCommand none false
            (some false) so none none none none none))

end

/-- One entry of an inbound request's option list: its name, its value when
present, and its nested option list when present (sub-command entries carry
one). -/
inductive RawOption where
  | mk (name : String) (value : Option Value) (subOptions : Option (List RawOption))

def RawOption.name : RawOption → String
  | .mk n _ _ => n

def RawOption.value : RawOption → Option Value
  | .mk _ v _ => v

def RawOption.subOptions : RawOption → Option (List RawOption)
  | .mk _ _ s => s

/-- CommandData._extract_to_base_command: when the command has children,
iterate over its (original) child list; whenever a child's name equals the
name of the FIRST element of the current option list, descend into that child
and replace the option list with that element's nested options, then continue
the iteration. Reading `options[0]` of an empty list is an IndexError; a
matched element without a nested option list is a KeyError. -/
def extractGo : List (String × Command) → Command → List RawOption →
    Except String (Command × List RawOption)
  | [], cur, curOpts => .ok (cur, curOpts)
  | (_, sub) :: rest, cur, curOpts =>
      match curOpts with
      | [] => .error ("IndexError: list index out of range")
      | o :: _ =>
          if sub.name = o.name then
            match o.subOptions with
            | none => .error ("KeyError: options")
            | some so => extractGo rest sub so
          else extractGo rest cur curOpts

def extractToBaseCommand (command : Command) (options : List RawOption) :
    Except String (Command × List RawOption) :=
  if command.isSubCommandGroup then extractGo command.subCommands command options
  else .ok (command, options)

/-- The `while command.is_sub_command_group` loop of CommandData.__init__,
made total with a fuel parameter: `.ok none` means the fuel ran out with the
loop still running (the source would still be looping). -/
def commandDataLoop : Nat → Command → List RawOption →
    Except String (Option (Command × List RawOption))
  | 0, c, opts =>
      if c.isSubCommandGroup then .ok none else .ok (some (c, opts))
  | n + 1, c, opts =>
      if c.isSubCommandGroup then
        match extractToBaseCommand c opts with
        | .error e => .error e
        | .ok (c2, o2) => commandDataLoop n c2 o2
      else .ok (some (c, opts))

/-- The state CommandData.__init__ leaves behind: the leaf command, the raw
option map `{o[name]: o}` and the flat value map `{o[name]: o[value]}`
(a KeyError when an option entry has no value). -/
structure CommandDataRes where
  command : Command
  options : List (String × RawOption)
  optionsFormatted : List (String × Value)

/-- CommandData.__init__ (fuel-indexed through the descent loop). -/
def commandDataInit (fuel : Nat) (command : Command) (options : List RawOption) :
    Except String (Option CommandDataRes) := do
  match ← commandDataLoop fuel command options with
  | none => .ok none
  | some (c, opts) =>
      let rawMap := opts.foldl (fun acc o => dictSet acc o.name o) []
      let fmtd ← opts.foldlM (fun acc o =>
        match o.value with
        | some v => .ok (dictSet acc o.name v)
        | none => Except.error ("KeyError: value")) []
      .ok (some ⟨c, rawMap, fmtd⟩)

/-- Resolved entity objects are plain read-only data holders; the pipeline
treats them opaquely, so each is modelled by its platform id. -/
structure UserM where
  id : Int
  deriving DecidableEq, Repr

structure MemberM where
  id : Int
  deriving DecidableEq, Repr

structure ChannelM where
  id : Int
  deriving DecidableEq, Repr

structure RoleM where
  id : Int
  deriving DecidableEq, Repr

/-- A raw resolved attachment record from the payload's resolved table. -/
structure AttachmentRec where
  contentType : String
  filename : String
  id : Int
  height : Int
  width : Int
  placeholder : Bool
  placeholderVersion : Int
  proxyUrl : String
  size : Int
  url : String
  deriving DecidableEq, Repr

/-- httpcord/attachment.py Attachment. -/
structure AttachmentM where
  contentType : String
  filename : String
  id : Int
  height : Int
  width : Int
  placeholder : Bool
  placeholderVersion : Int
  proxyUrl : String
  size : Int
  url : String
  deriving DecidableEq, Repr

/-- Attachment.from_option: field-for-field construction from the record. -/
def attachmentFromOption (d : AttachmentRec) : AttachmentM :=
  ⟨d.contentType, d.filename, d.id, d.height, d.width, d.placeholder,
    d.placeholderVersion, d.proxyUrl, d.size, d.url⟩

/-- httpcord/interaction.py Resolved: the per-request lookup tables keyed by
integer id (the messages table is omitted: no pipeline step reads it). -/
structure ResolvedM where
  users : List (Int × UserM)
  members : List (Int × MemberM)
  channels : List (Int × ChannelM)
  roles : List (Int × RoleM)
  deriving DecidableEq, Repr

/-- A value as the handler finally receives it: the raw wire value, an
enumeration member, or a resolved entity object. -/
inductive HandlerArg where
  | raw (v : Value)
  | enumMember (key : String) (memberValue : Value)
  | attachment (a : AttachmentM)
  | channel (c : ChannelM)
  | role (r : RoleM)
  | member (m : MemberM)
  | user (u : UserM)
  deriving DecidableEq, Repr

/-- `getattr(kwarg_type, option_value)` on an enumeration class: the member
whose name is the given string, an AttributeError when absent. -/
def enumGetattr (e : EnumInfo) (key : String) : Except String HandlerArg :=
  match dictGet? e.members key with
  | some mv => .ok (.enumMember key mv)
  | none => .error ("AttributeError: enum member not found")

/-- The enum-coercion loop of HTTPBot.__process_commands: for every option
whose handler annotation is an enumeration class, replace the raw serialized
key with the enumeration member (`getattr` requires a string name). -/
def enumCoerceOptions (h : Handler) (opts : List (String × Value)) :
    Except String (List (String × HandlerArg)) :=
  opts.mapM fun nv => do
    let ann ← match dictGet? h.annotationsList nv.1 with
      | some a => Except.ok a
      | none => Except.error ("KeyError: annotation")
    match ann with
    | .enumTy e =>
        match nv.2 with
        | .vStr s => (enumGetattr e s).map fun m => (nv.1, m)
        | _ => .error ("TypeError: attribute name must be string")
    | _ => .ok (nv.1, HandlerArg.raw nv.2)

/-- Python `int(option_value)` on a raw option value; a non-raw argument or a
non-numeric string is an error. -/
def argInt? : HandlerArg → Except String Int
  | .raw (.vInt n) => .ok n
  | .raw (.vStr s) =>
      match s.toInt? with
      | some n => .ok n
      | none => .error ("ValueError: invalid literal for int")
  | .raw (.vBool b) => .ok (if b then 1 else 0)
  | _ => .error ("TypeError: int argument")

/-- The reference-resolution loop of HTTPBot.__process_commands over the flat
value map: dispatch on the schema option's `_type` (ATTACHMENT from the raw
payload's resolved attachments, CHANNEL and ROLE from the Resolved tables)
then on its `_native_type` (Member and User classes); every other option
passes through unchanged. A name missing from the schema dict, or an id
missing from the consulted table, is a KeyError. -/
def resolveReferences (commandOptions : List (String × CommandOption))
    (resolved : ResolvedM) (rawAttachments : List (String × AttachmentRec))
    (opts : List (String × HandlerArg)) :
    Except String (List (String × HandlerArg)) :=
  opts.mapM fun nv => do
    let co ← match dictGet? commandOptions nv.1 with
      | some o => Except.ok o
      | none => Except.error ("KeyError: command option")
    if co.type = .attachment then
      match nv.2 with
      | .raw (.vStr s) =>
          match dictGet? rawAttachments s with
          | some rec => .ok (nv.1, HandlerArg.attachment (attachmentFromOption rec))
          | none => .error ("KeyError: resolved attachment")
      | _ => .error ("KeyError: resolved attachment")
    else if co.type = .channel then do
      let n ← argInt? nv.2
      match dictGet? resolved.channels n with
      | some c => .ok (nv.1, HandlerArg.channel c)
      | none => .error ("KeyError: resolved channel")
    else if co.type = .role then do
      let n ← argInt? nv.2
      match dictGet? resolved.roles n with
      | some r => .ok (nv.1, HandlerArg.role r)
      | none => .error ("KeyError: resolved role")
    else if co.nativeType = some .memberCls then do
      let n ← argInt? nv.2
      match dictGet? resolved.members n with
      | some m => .ok (nv.1, HandlerArg.member m)
      | none => .error ("KeyError: resolved member")
    else if co.nativeType = some .userCls then do
      let n ← argInt? nv.2
      match dictGet? resolved.users n with
      | some u => .ok (nv.1, HandlerArg.user u)
      | none => .error ("KeyError: resolved user")
    else .ok nv

/-- The option-processing chain of HTTPBot.__process_commands after the leaf
command is identified: the enum-coercion loop over the flat value map, then
(the auto-defer call aside, modelled with processResponse) the
reference-resolution loop against `command.options or {}`. -/
def processOptionValues (c : Command) (resolved : ResolvedM)
    (rawAttachments : List (String × AttachmentRec))
    (optionsFormatted : List (String × Value)) :
    Except String (List (String × HandlerArg)) := do
  let h ← match c.func with
    | some h => Except.ok h
    | none => Except.error ("AttributeError: __annotations__")
  let coerced ← enumCoerceOptions h optionsFormatted
  let copts ← c.options
  resolveReferences (copts.getD []) resolved rawAttachments coerced

/-- JSON values, for outbound payloads. -/
inductive JVal where
  | jNull
  | jInt (n : Int)
  | jStr (s : String)
  | jBool (b : Bool)
  | jArr (xs : List JVal)
  | jObj (fields : List (String × JVal))

/-- httpcord/file.py File, restricted to what outbound encoding reads: the
attachment-stub fields and the byte content `read()` returns. -/
structure FileRec where
  filename : String
  description : Option String
  spoiler : Bool
  content : List Nat
  deriving DecidableEq, Repr

/-- httpcord/http.py Route: the stored request url, JSON body and file list. -/
structure RouteM where
  url : String
  rawJson : Option JVal
  files : List FileRec

/-- One part of a multipart body: an indexed binary file part or the single
JSON-encoded `payload_json` part. -/
inductive PartVal where
  | fileBytes (content : List Nat)
  | payloadJson (j : JVal)

/-- Route.json (the property): None when no JSON body was given or when the
route carries at least one file; the stored JSON body otherwise. -/
def RouteM.jsonProp (r : RouteM) : Option JVal :=
  if r.rawJson.isNone || decide (r.files.length > 0) then none else r.rawJson

/-- Route.data (the property): None when the route carries no files; otherwise
the multipart dict of indexed file parts plus, when a JSON body was given, the
serialized `payload_json` part. -/
def RouteM.dataProp (r : RouteM) : Option (List (String × PartVal)) :=
  if r.files.length = 0 then none
  else
    some ((r.files.enum.map fun p =>
        ("files[" ++ toString p.1 ++ "]", PartVal.fileBytes p.2.content)) ++
      (match r.rawJson with
        | some j => [("payload_json", PartVal.payloadJson j)]
        | none => []))

/-- An outbound HTTP call issued through the transport. -/
inductive NetworkCall where
  | post (r : RouteM)
  | patch (r : RouteM)
  | put (r : RouteM)

/-- httpcord/interaction.py Interaction, restricted to the identity and the
two mutable response-state flags. -/
structure InteractionM where
  id : Int
  token : String
  deferred : Bool
  responded : Bool
  deriving DecidableEq, Repr

/-- The body of the deferred-acknowledgement call: the response-type tag, plus
a flags field only when ephemeral. -/
def deferPayload (withMessage ephemeral : Bool) : JVal :=
  let t : InteractionResponseType :=
    if withMessage then .deferredChannelMessageWithSource else .deferredUpdateMessage
  if ephemeral then
    .jObj [("type", .jInt t.val),
      ("data", .jObj [("flags", .jInt InteractionResponseFlags.ephemeral.val)])]
  else .jObj [("type", .jInt t.val)]

/-- The route of the deferred-acknowledgement call. -/
def deferralRoute (i : InteractionM) (withMessage ephemeral : Bool) : RouteM :=
  ⟨"/interactions/" ++ toString i.id ++ "/" ++ i.token ++ "/callback",
    some (deferPayload withMessage ephemeral), []⟩

/-- Interaction.defer: raises RuntimeError when the interaction was already
deferred or responded to; otherwise sets both flags and issues the
acknowledgement POST. -/
def interactionDefer (i : InteractionM) (withMessage ephemeral : Bool) :
    Except String (InteractionM × NetworkCall) :=
  if i.deferred || i.responded then
    .error ("Interaction has already been deferred or responded to.")
  else
    .ok (⟨i.id, i.token, true, true⟩, .post (deferralRoute i withMessage ephemeral))

/-- httpcord/interaction.py CommandResponse: response type, content, embeds
(already-serialized data holders), the stored `_flags`, and files. -/
structure CommandResponseM where
  rtype : InteractionResponseType
  content : Option String
  embeds : List JVal
  flags : Option InteractionResponseFlags
  files : List FileRec

/-- CommandResponse.__init__ sets `_flags` to EPHEMERAL iff ephemeral. -/
def mkCommandResponse (rtype : InteractionResponseType) (content : Option String)
    (embeds : List JVal) (ephemeral : Bool) (files : List FileRec) : CommandResponseM :=
  ⟨rtype, content, embeds,
    if ephemeral then some InteractionResponseFlags.ephemeral else none, files⟩

/-- CommandResponse.ephemeral: `_flags == EPHEMERAL`. -/
def CommandResponseM.ephemeralProp (r : CommandResponseM) : Bool :=
  decide (r.flags = some InteractionResponseFlags.ephemeral)

/-- The attachment stubs of CommandResponse.to_dict. -/
def attachmentStubs (files : List FileRec) : List JVal :=
  files.enum.map fun p =>
    .jObj [("id", .jInt p.1),
      ("filename", .jStr p.2.filename),
      ("description", match p.2.description with
        | some d => JVal.jStr d
        | none => JVal.jNull),
      ("spoiler", .jBool p.2.spoiler)]

/-- The `data` object of CommandResponse.to_dict. -/
def CommandResponseM.dataDict (r : CommandResponseM) : List (String × JVal) :=
  [("flags", match r.flags with
      | some fl => JVal.jInt fl.val
      | none => JVal.jNull),
    ("content", match r.content with
      | some s => JVal.jStr s
      | none => JVal.jNull),
    ("embeds", .jArr r.embeds),
    ("attachments", .jArr (attachmentStubs r.files))]

/-- CommandResponse.to_dict. -/
def CommandResponseM.toDict (r : CommandResponseM) : JVal :=
  .jObj [("type", .jInt r.rtype.val), ("data", .jObj r.dataDict)]

/-- HTTPBot.__process_response: a response without files becomes the
synchronous JSON body; a response with files first defers (only when the
deferred flag is unset), then PATCHes the original message with the `data`
object minus its flags key and the files attached, returning no synchronous
body. The result is (synchronous body, outbound calls in order, final
interaction state). -/
def processResponse (botId : Int) (r : CommandResponseM) (i : InteractionM) :
    Except String (Option JVal × List NetworkCall × InteractionM) :=
  if r.files.length = 0 then .ok (some r.toDict, [], i)
  else
    let finish : InteractionM → List NetworkCall →
        Except String (Option JVal × List NetworkCall × InteractionM) := fun i1 cs =>
      let payload := JVal.jObj (dictErase r.dataDict "flags")
      let route : RouteM :=
        ⟨"/webhooks/" ++ toString botId ++ "/" ++ i1.token ++ "/messages/@original",
          some payload, r.files⟩
      .ok (none, cs ++ [.patch route], i1)
    if !i.deferred then
      match interactionDefer i true r.ephemeralProp with
      | .error e => .error e
      | .ok (i1, c) => finish i1 [c]
    else finish i []

/-- HTTPBot._commands: one dict of commands per command kind (all four kinds
are present as keys from construction). -/
structure CommandTables where
  chatInputCmds : List (String × Command)
  userCmds : List (String × Command)
  messageCmds : List (String × Command)
  primaryEntryPointCmds : List (String × Command)

/-- `self._commands[kind]`. -/
def CommandTables.get (t : CommandTables) : ApplicationCommandType → List (String × Command)
  | .chatInput => t.chatInputCmds
  | .user => t.userCmds
  | .message => t.messageCmds
  | .primaryEntryPoint => t.primaryEntryPointCmds

/-- `self._commands[kind][name] = command`. -/
def CommandTables.assign (t : CommandTables) (kind : ApplicationCommandType)
    (name : String) (c : Command) : CommandTables :=
  match kind with
  | .chatInput => { t with chatInputCmds := dictSet t.chatInputCmds name c }
  | .user => { t with userCmds := dictSet t.userCmds name c }
  | .message => { t with messageCmds := dictSet t.messageCmds name c }
  | .primaryEntryPoint =>
      { t with primaryEntryPointCmds := dictSet t.primaryEntryPointCmds name c }

/-- HTTPBot.register_command: `self._commands[command.command_type][command._name]
= command` (the isinstance check cannot fail in a typed model). -/
def registerCommand (t : CommandTables) (c : Command) : CommandTables :=
  t.assign c.commandType c.name c

/-- HTTPBot.command applied to a handler function: the `command_type not in
self._commands` check never fires (all four kinds are table keys); autocompletes
with a non-CHAT_INPUT kind raise ValueError; otherwise the Command is built and
assigned into the table under (command_type, name). -/
def commandDecorator (t : CommandTables) (name : String) (description : Option String)
    (autocompletes : Option (List String)) (commandType : ApplicationCommandType)
    (autoDefer : Bool) (optionLocalisations : Option (List (String × Locale)))
    (func : Handler) : Except String CommandTables :=
  if commandType ≠ .chatInput ∧ autocompletes.isSome then
    .error ("Autocompletes are only supported for CHAT_INPUT commands")
  else
    (commandInit name (some commandType) description (some func) autocompletes
      (some autoDefer) none optionLocalisations).map fun c =>
      t.assign commandType name c

/-- Whether an Except value is a success. -/
def isOkB {ε α : Type} : Except ε α → Bool
  | .ok _ => true
  | .error _ => false

/-- The success value of an Except, when there is one. -/
def exceptToOption {ε α : Type} : Except ε α → Option α
  | .ok a => some a
  | .error _ => none

section DictLemmas

variable {α β : Type} [DecidableEq α]

theorem dictGet?_dictSet_self (xs : List (α × β)) (k : α) (v : β) :
    dictGet? (dictSet xs k v) k = some v := by
  induction xs with
  | nil => simp [dictSet, dictGet?]
  | cons p xs ih =>
      obtain ⟨a, b⟩ := p
      by_cases h : a = k
      · simp [dictSet, h, dictGet?]
      · simp [dictSet, h, dictGet?, ih]

theorem dictGet?_append_of_none (xs ys : List (α × β)) (k : α)
    (h : dictGet? xs k = none) : dictGet? (xs ++ ys) k = dictGet? ys k := by
  induction xs with
  | nil => simp
  | cons p xs ih =>
      obtain ⟨a, b⟩ := p
      by_cases hak : a = k
      · simp [dictGet?, hak] at h
      · simp only [dictGet?, hak, if_false] at h
        rw [List.cons_append]
        simp only [dictGet?, hak, if_false]
        exact ih h

theorem dictSet_eq_append (xs : List (α × β)) (k : α) (v : β)
    (h : dictGet? xs k = none) : dictSet xs k v = xs ++ [(k, v)] := by
  induction xs with
  | nil => simp [dictSet]
  | cons p xs ih =>
      obtain ⟨a, b⟩ := p
      by_cases hak : a = k
      · simp [dictGet?, hak] at h
      · simp only [dictGet?, hak, if_false] at h
        simp [dictSet, hak, ih h]

theorem dictGet?_of_nodup (l : List (α × β)) (hnd : (l.map Prod.fst).Nodup) :
    ∀ m ∈ l, dictGet? l m.1 = some m.2 := by
  induction l with
  | nil => intro m hm; cases hm
  | cons p xs ih =>
      intro m hm
      obtain ⟨a, b⟩ := p
      simp only [List.map_cons, List.nodup_cons] at hnd
      cases hm with
      | head => simp [dictGet?]
      | tail _ hmem =>
          have hne : a ≠ m.1 := by
            intro heq
            exact hnd.1 (heq ▸ List.mem_map_of_mem Prod.fst hmem)
          simp only [dictGet?, hne, if_false]
          exact ih hnd.2 m hmem

end DictLemmas

/-
  Concrete fixtures used by the claim theorems below.
-/

/-- A handler declaring one parameter annotated with the `User` entity class
(wire type tag USER through TYPE_CONVERSION_TABLE), with a return annotation. -/
def userOptHandler : Handler :=
  ⟨[("interaction", .native .otherCls), ("user", .native .userCls)],
    some (.native .otherCls), []⟩

/-- The leaf command owning `userOptHandler`. -/
def userOptCommand : Command :=
  Command.mk "get-user" none .chatInput (some userOptHandler) [] false [] []

/-- A handler declaring one parameter annotated with the `File` class
(wire type tag ATTACHMENT through TYPE_CONVERSION_TABLE). -/
def fileOptHandler : Handler :=
  ⟨[("interaction", .native .otherCls), ("file", .native .fileCls)],
    some (.native .otherCls), []⟩

/-- The leaf command owning `fileOptHandler`. -/
def fileOptCommand : Command :=
  Command.mk "upload" none .chatInput (some fileOptHandler) [] false [] []

/-- A concrete resolved attachment record keyed under id 7. -/
def sampleAttachmentRec : AttachmentRec :=
  ⟨"image/png", "pic.png", 7, 32, 32, false, 1, "proxy", 128, "url"⟩

/-- A trivial leaf handler taking only the interaction parameter. -/
def trivialHandler : Handler :=
  ⟨[("interaction", .native .otherCls)], some (.native .otherCls), []⟩

/-- Claim C1: the resolution engine is claimed to replace every reference-typed
option's raw ID with the resolved object before handler invocation. The code
does so only for the ATTACHMENT wire type (second conjunct): a parameter
declared with the `User` class gets the USER wire type, yet Command.options
never sets `_native_type` on the descriptor, so the `_native_type` branches of
__process_commands can never fire and the handler receives the raw ID string
even though the user is present in the resolved tables (first conjunct). -/
theorem user_option_receives_raw_id :
    processOptionValues userOptCommand ⟨[(42, ⟨42⟩)], [], [], []⟩ []
      [("user", .vStr "42")] = .ok [("user", .raw (.vStr "42"))] ∧
    processOptionValues fileOptCommand ⟨[], [], [], []⟩
      [("7", sampleAttachmentRec)] [("file", .vStr "7")] =
      .ok [("file", .attachment (attachmentFromOption sampleAttachmentRec))] :=
  ⟨rfl, rfl⟩

/-- Claim C2: a reference-type option whose referenced ID is absent from every
resolved table is claimed to raise a data-integrity error. For a USER-typed
option the code raises nothing and silently hands the handler the raw ID: with
all resolved tables empty, processing succeeds and yields the raw string. -/
theorem missing_user_resolution_passes_raw_id :
    processOptionValues userOptCommand ⟨[], [], [], []⟩ []
      [("user", .vStr "42")] = .ok [("user", .raw (.vStr "42"))] :=
  rfl

/-- The leaf sub-command named a, child of the group below. -/
def descentLeafA : Command :=
  Command.mk "a" none .chatInput (some trivialHandler) [] false [] []

/-- A registered group command g with the single child a. -/
def descentGroupG : Command :=
  Command.mk "g" none .chatInput none [] false [("a", descentLeafA)] []

/-- An inbound option list whose first element names no child of g. -/
def descentBadOpts : List RawOption :=
  [RawOption.mk "b" none (some [])]

/-- Claim C5: the sub-command descent loop is claimed to terminate on every
input. When the option list's first element names no child of the group,
_extract_to_base_command returns its arguments unchanged while the node keeps
its children, so the while loop of CommandData.__init__ repeats the identical
state forever: for every fuel bound the loop is still running. -/
theorem descent_loop_never_terminates_on_mismatch :
    ∀ fuel : Nat, commandDataLoop fuel descentGroupG descentBadOpts = .ok none := by
  intro fuel
  induction fuel with
  | zero => rfl
  | succ n ih => exact ih

/-- The leaf sub-command named sub, with one integer parameter x. -/
def twoLevelLeafSub : Command :=
  Command.mk "sub" none .chatInput
    (some ⟨[("interaction", .native .otherCls), ("x", .native (.prim .pyInt))],
      some (.native .otherCls), []⟩)
    [] false [] []

/-- The registered group command named group whose child sub is a leaf. -/
def twoLevelGroup : Command :=
  Command.mk "group" none .chatInput none [] false [("sub", twoLevelLeafSub)] []

/-- The nested option entry for x with value 5. -/
def twoLevelXOpt : RawOption := RawOption.mk "x" (some (.vInt 5)) none

/-- The option list of the payload `{name: group, options: [{name: sub,
options: [{name: x, value: 5}]}]}` as handed to CommandData after the
top-level name matched the registered group. -/
def twoLevelPayload : List RawOption :=
  [RawOption.mk "sub" none (some [twoLevelXOpt])]

/-- Claim C6: resolving the two-level sub-command payload against the matching
registered group yields the leaf node named sub, the raw option map carrying
key x, and the flat value map mapping x to 5. -/
theorem two_level_descent_resolves_leaf :
    commandDataInit 2 twoLevelGroup twoLevelPayload =
      .ok (some ⟨twoLevelLeafSub, [("x", twoLevelXOpt)], [("x", .vInt 5)]⟩) :=
  rfl

/-- A leaf command used as a sub-command below. -/
def bothLeaf : Command :=
  Command.mk "hello" none .chatInput (some trivialHandler) [] false [] []

/-- Claim C9 counterexample: the claim says construction also fails when both a
handler function and sub-commands are supplied; Command.__init__ only checks
the no-handler cases, so supplying both succeeds. -/
theorem construction_accepts_handler_and_subcommands :
    isOkB (commandInit "both" none none (some trivialHandler) none none
      (some [bothLeaf]) none) = true :=
  rfl

/-- Claim C9 (amended): Command construction fails exactly when no handler is
supplied and the sub-command list is absent or empty; every successfully
constructed node has a handler or at least one child, but may have both. -/
theorem construction_fails_iff_no_handler_and_no_subcommands
    (name : String) (ct : Option ApplicationCommandType) (d : Option String)
    (f : Option Handler) (ac : Option (List String)) (ad : Option Bool)
    (subs : Option (List Command)) (ol : Option (List (String × Locale))) :
    isOkB (commandInit name ct d f ac ad subs ol) = false ↔
      (f = none ∧ (subs.getD []).length = 0) := by
  cases f <;> cases subs <;> simp [commandInit, isOkB]
  rename_i l
  by_cases hl : l.length = 0
  · obtain rfl := List.length_eq_zero.mp hl
    simp
  · simp [hl, ← List.length_eq_zero]

/-- A handler response with no files, used for the direct-reply path. -/
def directReplyResponse : CommandResponseM :=
  mkCommandResponse .channelMessageWithSource (some "hi") [] false []

/-- A fresh interaction (neither deferred nor responded). -/
def freshInteractionFixture : InteractionM := ⟨1, "tok", false, false⟩

/-- Claim C7 counterexample: the claim says defer() after a direct reply always
fails with a state error and performs no call. The direct-reply branch of
__process_response leaves both interaction flags untouched (first conjunct), so
a subsequent defer() on that interaction succeeds and issues the
acknowledgement POST (second conjunct). -/
theorem defer_after_direct_reply_succeeds :
    processResponse 99 directReplyResponse freshInteractionFixture =
      .ok (some directReplyResponse.toDict, [], freshInteractionFixture) ∧
    interactionDefer freshInteractionFixture true false =
      .ok (⟨1, "tok", true, true⟩,
        .post (deferralRoute freshInteractionFixture true false)) :=
  ⟨rfl, rfl⟩

/-- Claim C7 (amended): invoking defer() a second time after a successful
defer() always fails with the state RuntimeError and issues no network call
(the error result carries none); the direct-reply path does not mark the
interaction responded, so only defer-after-defer (and defer-after-followup)
is rejected. -/
theorem second_defer_always_fails (i i2 : InteractionM) (wm eph wm2 eph2 : Bool)
    (c : NetworkCall) (h : interactionDefer i wm eph = .ok (i2, c)) :
    interactionDefer i2 wm2 eph2 =
      .error ("Interaction has already been deferred or responded to.") := by
  unfold interactionDefer at h
  split at h
  · cases h
  · simp only [Except.ok.injEq, Prod.mk.injEq] at h
    obtain ⟨hi2, _⟩ := h
    subst hi2
    simp [interactionDefer]

/-- Witness for second_defer_always_fails at a concrete interaction. -/
theorem second_defer_always_fails_witness :
    interactionDefer ⟨2, "t", true, true⟩ false true =
      .error ("Interaction has already been deferred or responded to.") :=
  second_defer_always_fails ⟨2, "t", false, false⟩ ⟨2, "t", true, true⟩ true false
    false true (.post (deferralRoute ⟨2, "t", false, false⟩ true false)) rfl

/-- Claim C8: a response with zero files produces the JSON-only synchronous
body and no outbound call; a response with files while the interaction is
fresh issues the deferred acknowledgement and then the patch of the original
response, returning no synchronous body; and for any outbound route the choice
between a JSON body and a multipart body depends only on whether the route
carries at least one file. -/
theorem response_assembly_by_file_presence (botId : Int) (r : CommandResponseM)
    (i : InteractionM) (rt : RouteM) :
    (r.files = [] → processResponse botId r i = .ok (some r.toDict, [], i)) ∧
    (r.files ≠ [] → i.deferred = false → i.responded = false →
      processResponse botId r i = .ok (none,
        [.post (deferralRoute i true r.ephemeralProp),
          .patch ⟨"/webhooks/" ++ toString botId ++ "/" ++ i.token ++
              "/messages/@original",
            some (JVal.jObj (dictErase r.dataDict "flags")), r.files⟩],
        ⟨i.id, i.token, true, true⟩)) ∧
    (rt.files = [] → rt.dataProp = none ∧ rt.jsonProp = rt.rawJson) ∧
    (rt.files ≠ [] → rt.jsonProp = none ∧ rt.dataProp ≠ none) := by
  refine ⟨?_, ?_, ?_, ?_⟩
  · intro hf
    simp [processResponse, hf]
  · intro hf hd hr
    have hlen : ¬ r.files.length = 0 := by
      simpa [List.length_eq_zero] using hf
    simp [processResponse, hlen, hd, interactionDefer, hr]
  · intro hf
    refine ⟨by simp [RouteM.dataProp, hf], ?_⟩
    cases hj : rt.rawJson <;> simp [RouteM.jsonProp, hf, hj]
  · intro hf
    have hlen : ¬ rt.files.length = 0 := by
      simpa [List.length_eq_zero] using hf
    constructor
    · simp [RouteM.jsonProp, Nat.pos_of_ne_zero hlen]
    · simp [RouteM.dataProp, hlen]

/-- A file carried by the responses below. -/
def c8File : FileRec := ⟨"a.txt", none, false, [104, 105]⟩

/-- A response with no files. -/
def c8RespNoFiles : CommandResponseM :=
  mkCommandResponse .channelMessageWithSource (some "plain") [] false []

/-- A response carrying one file. -/
def c8RespWithFile : CommandResponseM :=
  mkCommandResponse .channelMessageWithSource (some "file") [] false [c8File]

/-- A fresh interaction for the C8 witness. -/
def c8Fresh : InteractionM := ⟨3, "tk", false, false⟩

/-- A route with a JSON body and no files. -/
def c8RouteJson : RouteM := ⟨"/demo", some (.jObj [("a", .jInt 1)]), []⟩

/-- A route with a JSON body and one file. -/
def c8RouteFile : RouteM := ⟨"/demo", some (.jObj [("a", .jInt 1)]), [c8File]⟩

/-- Witness for response_assembly_by_file_presence at concrete inputs. -/
theorem response_assembly_witness :
    processResponse 5 c8RespNoFiles c8Fresh =
      .ok (some c8RespNoFiles.toDict, [], c8Fresh) ∧
    processResponse 5 c8RespWithFile c8Fresh = .ok (none,
      [.post (deferralRoute c8Fresh true c8RespWithFile.ephemeralProp),
        .patch ⟨"/webhooks/" ++ toString (5 : Int) ++ "/" ++ c8Fresh.token ++
            "/messages/@original",
          some (JVal.jObj (dictErase c8RespWithFile.dataDict "flags")),
          c8RespWithFile.files⟩],
      ⟨c8Fresh.id, c8Fresh.token, true, true⟩) ∧
    (c8RouteJson.dataProp = none ∧ c8RouteJson.jsonProp = c8RouteJson.rawJson) ∧
    (c8RouteFile.jsonProp = none ∧ c8RouteFile.dataProp ≠ none) := by
  have h1 := response_assembly_by_file_presence 5 c8RespNoFiles c8Fresh c8RouteJson
  have h2 := response_assembly_by_file_presence 5 c8RespWithFile c8Fresh c8RouteFile
  exact ⟨h1.1 rfl,
    h2.2.1 (by simp [c8RespWithFile, mkCommandResponse]) rfl rfl,
    h1.2.2.1 rfl,
    h2.2.2.2 (by simp [c8RouteFile])⟩

theorem CommandTables.get_assign_self (t : CommandTables)
    (k : ApplicationCommandType) (nm : String) (c : Command) :
    (t.assign k nm c).get k = dictSet (t.get k) nm c := by
  cases k <;> rfl

/-- Claim C10: registering a command whose (kind, name) pair equals an
already-registered command's pair silently replaces the earlier entry.
First conjunct: two register_command calls with matching kind and name leave
the later command in the table, with no error path. Second conjunct: two
decorator registrations under the same name both succeed, and the table then
holds the command built from the second handler. -/
theorem later_registration_wins (t : CommandTables) (c1 c2 : Command)
    (n : String) (d : Option String) (auto : Option (List String))
    (h1 h2 : Handler) (t1 t2 : CommandTables)
    (hk : c1.commandType = c2.commandType) (hn1 : c1.name = n) (hn2 : c2.name = n)
    (_hd1 : commandDecorator t n d auto .chatInput false none h1 = .ok t1)
    (hd2 : commandDecorator t1 n d auto .chatInput false none h2 = .ok t2) :
    dictGet? ((registerCommand (registerCommand t c1) c2).get c1.commandType)
      c1.name = some c2 ∧
    dictGet? (t2.get .chatInput) n =
      exceptToOption (commandInit n (some .chatInput) d (some h2) auto
        (some false) none none) := by
  constructor
  · rw [hk, hn1, registerCommand, CommandTables.get_assign_self, hn2]
    exact dictGet?_dictSet_self _ _ _
  · rw [commandDecorator] at hd2
    simp [commandInit, exceptToOption, Except.map] at hd2 ⊢
    subst hd2
    rw [CommandTables.get_assign_self]
    exact dictGet?_dictSet_self _ _ _

/-- The first handler registered under the duplicate name. -/
def regHandlerOne : Handler :=
  ⟨[("interaction", .native .otherCls)], some (.native .otherCls), []⟩

/-- The second handler registered under the duplicate name. -/
def regHandlerTwo : Handler :=
  ⟨[("interaction", .native .otherCls), ("x", .native (.prim .pyStr))],
    some (.native .otherCls), []⟩

/-- The first command registered under the duplicate (kind, name) pair. -/
def regCmdOne : Command :=
  Command.mk "dup" none .chatInput (some regHandlerOne) [] false [] []

/-- The second command registered under the duplicate (kind, name) pair. -/
def regCmdTwo : Command :=
  Command.mk "dup" none .chatInput (some regHandlerTwo) [] false [] []

/-- An empty command table. -/
def emptyTables : CommandTables := ⟨[], [], [], []⟩

/-- A handler with a parameter x after the interaction parameter but NO
return-type annotation. -/
def noReturnAnnHandler : Handler :=
  ⟨[("interaction", .native .otherCls), ("x", .native (.prim .pyInt))], none, []⟩

/-- The leaf command owning noReturnAnnHandler. -/
def noReturnAnnCommand : Command :=
  Command.mk "echo" none .chatInput (some noReturnAnnHandler) [] false [] []

/-- Claim C3 counterexample: the claim says the derived schema contains one
descriptor for every parameter after the first. For a handler without a
return-type annotation the slice annotations[1:-1] drops the last parameter
too: here the schema comes out empty although the handler declares x. -/
theorem schema_drops_last_param_without_return_ann :
    Command.options noReturnAnnCommand = .ok (some []) :=
  rfl

theorem buildOption_ok (autoc : List String) (locs : List (String × Locale))
    (kwd : List String) (p : String × AnnTy) (o : CommandOption)
    (h : buildOption autoc locs kwd p = .ok o) :
    o.name = p.1 ∧ o.required = decide (p.1 ∉ kwd) := by
  simp only [buildOption, Bind.bind, Except.bind] at h
  cases hdesc : optionDescriptionFor locs p.1 with
  | error e => rw [hdesc] at h; cases h
  | ok dv =>
      rw [hdesc] at h
      injection h with h2
      subst h2
      exact ⟨rfl, rfl⟩

theorem leafOptionsGo_forall₂ (autoc : List String) (locs : List (String × Locale))
    (kwd : List String) :
    ∀ (ps : List (String × AnnTy)) (acc res : List (String × CommandOption)),
      (ps.map Prod.fst).Nodup →
      (∀ p ∈ ps, dictGet? acc p.1 = none) →
      leafOptionsGo autoc locs kwd ps acc = .ok res →
      ∃ built, res = acc ++ built ∧
        List.Forall₂ (fun (oe : String × CommandOption) (p : String × AnnTy) =>
          oe.1 = p.1 ∧ oe.2.name = p.1 ∧ oe.2.required = decide (p.1 ∉ kwd))
          built ps := by
  intro ps
  induction ps with
  | nil =>
      intro acc res _ _ hrun
      simp only [leafOptionsGo] at hrun
      injection hrun with hres
      exact ⟨[], by simp [hres.symm], List.Forall₂.nil⟩
  | cons p ps ih =>
      intro acc res hnd hacc hrun
      simp only [leafOptionsGo] at hrun
      cases hb : buildOption autoc locs kwd p with
      | error e =>
          rw [hb] at hrun
          simp only [Bind.bind, Except.bind] at hrun
          cases hrun
      | ok o =>
          rw [hb] at hrun
          simp only [Bind.bind, Except.bind] at hrun
          have hkacc : dictGet? acc p.1 = none := hacc p (List.mem_cons_self p ps)
          rw [dictSet_eq_append acc p.1 o hkacc] at hrun
          simp only [List.map_cons, List.nodup_cons] at hnd
          have hacc2 : ∀ q ∈ ps, dictGet? (acc ++ [(p.1, o)]) q.1 = none := by
            intro q hq
            have hq1 : dictGet? acc q.1 = none :=
              hacc q (List.mem_cons_of_mem p hq)
            rw [dictGet?_append_of_none acc [(p.1, o)] q.1 hq1]
            have hne : p.1 ≠ q.1 := by
              intro heq
              exact hnd.1 (heq ▸ List.mem_map_of_mem Prod.fst hq)
            simp [dictGet?, hne]
          obtain ⟨built, hres, hfa⟩ := ih (acc ++ [(p.1, o)]) res hnd.2 hacc2 hrun
          refine ⟨(p.1, o) :: built, ?_, ?_⟩
          · rw [hres]; simp
          · have hsh := buildOption_ok autoc locs kwd p o hb
            exact List.Forall₂.cons ⟨rfl, hsh.1, hsh.2⟩ hfa

/-- Claim C3 (amended): for a leaf command whose handler carries a return-type
annotation and distinct parameter names, a successfully derived option schema
contains exactly one descriptor per parameter after the first (the interaction
context), in declaration order, each named after its parameter, with required
true iff the parameter name is absent from the handler's keyword defaults.
Without a return annotation the annotations[1:-1] slice also drops the last
parameter (see the counterexample). -/
theorem derived_schema_matches_declared_params (nm : String) (d : Option String)
    (ct : ApplicationCommandType) (h : Handler) (autoc : List String) (ad : Bool)
    (subs : List (String × Command)) (locs : List (String × Locale))
    (first : String × AnnTy) (rest : List (String × AnnTy)) (ra : AnnTy)
    (opts : List (String × CommandOption))
    (hparams : h.params = first :: rest)
    (hret : h.returnAnn = some ra)
    (hnd : (rest.map Prod.fst).Nodup)
    (hok : Command.options
      (Command.mk nm d ct (some h) autoc ad subs locs) = .ok (some opts)) :
    List.Forall₂ (fun (oe : String × CommandOption) (p : String × AnnTy) =>
      oe.1 = p.1 ∧ oe.2.name = p.1 ∧ oe.2.required = decide (p.1 ∉ h.kwdefaults))
      opts rest := by
  have hraw : h.rawOptionsList = rest := by
    rw [Handler.rawOptionsList, Handler.annotationsList, hparams, hret]
    simp
  simp only [Command.options, Option.isNone_some, Bool.false_and,
    Bool.false_or, Bool.or_self, if_false] at hok
  cases hl : leafOptions h autoc locs with
  | error e => rw [hl] at hok; cases hok
  | ok v =>
      rw [hl] at hok
      simp only [Except.map, Bool.false_eq_true, if_false, Except.ok.injEq,
        Option.some.injEq] at hok
      subst hok
      rw [leafOptions, hraw] at hl
      obtain ⟨built, hres, hfa⟩ :=
        leafOptionsGo_forall₂ autoc locs h.kwdefaults rest [] v hnd
          (by intro q _; rfl) hl
      rw [hres, List.nil_append]
      exact hfa

/-- A handler with two parameters, the second carrying a keyword default. -/
def schemaWitnessHandler : Handler :=
  ⟨[("interaction", .native .otherCls), ("x", .native (.prim .pyInt)),
      ("y", .native (.prim .pyStr))],
    some (.native .otherCls), ["y"]⟩

/-- The options the builder derives for schemaWitnessHandler. -/
def schemaWitnessOpts : List (String × CommandOption) :=
  [("x", CommandOption.mk "x" none .integer none true (some false) none none
      none none none none),
    ("y", CommandOption.mk "y" none .string none false (some false) none none
      none none none none)]

/-- Witness for derived_schema_matches_declared_params at a concrete leaf. -/
theorem derived_schema_matches_witness :
    List.Forall₂ (fun (oe : String × CommandOption) (p : String × AnnTy) =>
      oe.1 = p.1 ∧ oe.2.name = p.1 ∧
        oe.2.required = decide (p.1 ∉ schemaWitnessHandler.kwdefaults))
      schemaWitnessOpts
      [("x", .native (.prim .pyInt)), ("y", .native (.prim .pyStr))] :=
  derived_schema_matches_declared_params "echo2" none .chatInput
    schemaWitnessHandler [] false [] [] ("interaction", .native .otherCls)
    [("x", .native (.prim .pyInt)), ("y", .native (.prim .pyStr))]
    (.native .otherCls) schemaWitnessOpts rfl rfl (by decide) rfl

/-- A handler whose single parameter is annotated with an enumeration class. -/
def enumParamHandler (e : EnumInfo) : Handler :=
  ⟨[("interaction", .native .otherCls), ("flavour", .enumTy e)],
    some (.native .otherCls), []⟩

/-- Claim C4: for an enumeration-typed parameter, the derived choice list has
one choice per enumeration member whose serialized value is the member's name
(first two conjuncts), and feeding a choice's serialized value back through
the enum-coercion step of __process_commands returns exactly that member
(second and third conjuncts), for every member — a serialize-then-coerce
round trip. The member names of a Python enumeration are necessarily
distinct, which the Nodup hypothesis records. -/
theorem enum_choices_roundtrip (e : EnumInfo)
    (hnd : (e.members.map Prod.fst).Nodup) :
    (enumChoices e).length = e.members.length ∧
    List.Forall₂ (fun (c : Choice) (m : String × Value) =>
      c.value = m.1 ∧ c.name = m.2 ∧
        enumGetattr e c.value = .ok (.enumMember m.1 m.2))
      (enumChoices e) e.members ∧
    (∀ m ∈ e.members,
      enumCoerceOptions (enumParamHandler e) [("flavour", .vStr m.1)] =
        .ok [("flavour", .enumMember m.1 m.2)]) := by
  have hget : ∀ m ∈ e.members, enumGetattr e m.1 = .ok (.enumMember m.1 m.2) := by
    intro m hm
    rw [enumGetattr, dictGet?_of_nodup e.members hnd m hm]
  refine ⟨by simp [enumChoices], ?_, ?_⟩
  · rw [enumChoices, List.forall₂_map_left_iff, List.forall₂_same]
    intro m hm
    exact ⟨rfl, rfl, hget m hm⟩
  · intro m hm
    simp only [enumCoerceOptions, enumParamHandler, Handler.annotationsList,
      List.mapM_cons, List.mapM_nil, dictGet?, List.cons_append, List.nil_append]
    simp [Bind.bind, Except.bind, Except.map, hget m hm, pure, Except.pure]

/-- A two-member enumeration for the C4 witness. -/
def flavourEnum : EnumInfo :=
  ⟨[("VANILLA", .vStr "vanilla"), ("CHOCOLATE", .vStr "chocolate")], .otherCls⟩

/-- Witness for enum_choices_roundtrip at a concrete enumeration. -/
theorem enum_choices_roundtrip_witness :
    (enumChoices flavourEnum).length = flavourEnum.members.length ∧
    List.Forall₂ (fun (c : Choice) (m : String × Value) =>
      c.value = m.1 ∧ c.name = m.2 ∧
        enumGetattr flavourEnum c.value = .ok (.enumMember m.1 m.2))
      (enumChoices flavourEnum) flavourEnum.members ∧
    (∀ m ∈ flavourEnum.members,
      enumCoerceOptions (enumParamHandler flavourEnum) [("flavour", .vStr m.1)] =
        .ok [("flavour", .enumMember m.1 m.2)]) :=
  enum_choices_roundtrip flavourEnum (by decide)

/-- Witness for later_registration_wins at concrete inputs. -/
theorem later_registration_wins_witness :
    dictGet? ((registerCommand (registerCommand emptyTables regCmdOne)
        regCmdTwo).get regCmdOne.commandType) regCmdOne.name = some regCmdTwo ∧
    dictGet? ((⟨[("dup", regCmdTwo)], [], [], []⟩ : CommandTables).get .chatInput)
        "dup" =
      exceptToOption (commandInit "dup" (some .chatInput) none (some regHandlerTwo)
        none (some false) none none) :=
  later_registration_wins emptyTables regCmdOne regCmdTwo "dup" none none
    regHandlerOne regHandlerTwo ⟨[("dup", regCmdOne)], [], [], []⟩
    ⟨[("dup", regCmdTwo)], [], [], []⟩ rfl rfl rfl rfl rfl

end Httpcord
